import Mathlib

/-!
# Verification of the ColumnScrollLogger (src/yourcode.js)

A shallow embedding of the `ColumnScrollLogger` class: a scroll/resize
handler that, for each tracked `.column` element, tests three reference
points (start / center / end, direction-dependent) against the open
viewport interval and dispatches a once-only event per (element, position)
whose listener logs a fixed message.

Modelling choices:
* Pixel quantities (scroll offsets, rectangle coordinates, viewport
  height) are rationals `ℚ`: the source's arithmetic (`+`, `/2`,
  comparisons) is exact on the values of interest.
* A DOM element's per-cycle observable data is an `ElemInput`: its
  bounding rectangle, its own computed `display` string, and the list of
  computed `display` strings of its ancestor chain (nearest parent
  first).  `Rect.bottom = top + height` encodes the DOM invariant used
  by `getBoundingClientRect`.
* The `{once: true}` listeners registered by `getColumns` are per-element
  boolean latches (`firedStart`/`firedCenter`/`firedEnd`); dispatching an
  event on an element invokes (and consumes) the listener only when the
  latch is still unset, producing a `LogEntry` carrying the element's
  index, the position, and the `logStatus` message.
* `isHidden` in the source falls off the end (returns `undefined`) for a
  visible root element, and the caller applies `!` (JS truthiness); the
  model returns `Option Bool` and `truthy` embeds the coercion.
* `lastScrollStart` starts as `null`; JS evaluates `st > null` as
  `st > 0`, which the model reproduces on the `none` case.
* `checkColumnPositionE` additionally models the host geometry queries
  as fallible (`Option ElemInput`); the source has no try/catch, so a
  failed query raises an exception that aborts the `forEach` loop: the
  model returns the state mutated so far, the log emitted so far, and a
  flag recording that the exception propagated.
-/

/-- Scroll direction, as stored in `this.scrollDirection`. -/
inductive Direction
  | down
  | up
deriving DecidableEq, Repr

/-- The three semantic positions (the keys of `this.events`). -/
inductive Position
  | start
  | center
  | end'
deriving DecidableEq, Repr

/-- A bounding client rectangle: `top` and `height` as reported by
`getBoundingClientRect`. -/
structure Rect where
  top : ℚ
  height : ℚ
deriving DecidableEq, Repr

/-- DOM invariant of `getBoundingClientRect`: `rect.bottom = rect.top + rect.height`. -/
def Rect.bottom (r : Rect) : ℚ := r.top + r.height

/-- One tracked column element: its `id` attribute and the three
single-fire listener latches installed by `getColumns` with
`{ once: true }` (`true` = the listener has already fired and was
removed). -/
structure Column where
  id : String
  firedStart : Bool
  firedCenter : Bool
  firedEnd : Bool
deriving DecidableEq, Repr

/-- The latch of a column for a given position. -/
def Column.fired (c : Column) : Position → Bool
  | Position.start => c.firedStart
  | Position.center => c.firedCenter
  | Position.end' => c.firedEnd

/-- Per-cycle observable data of one element: its rectangle, its own
computed `display`, and the computed `display` of each ancestor
(nearest parent first). -/
structure ElemInput where
  rect : Rect
  display : String
  ancestorDisplays : List String
deriving DecidableEq, Repr

/-- One delivered notification: the index of the tracked element whose
listener fired, the semantic position, and the logged message. -/
structure LogEntry where
  colIdx : Nat
  pos : Position
  message : String
deriving DecidableEq, Repr

/-- `logStatus(position, id)`: the message logged for a position. -/
def logStatus (position : Position) (id : String) : String :=
  match position with
  | Position.start => "Column with id:" ++ id ++ " started to become visible on the page."
  | Position.center => "Column with id:" ++ id ++ " is now more than 50% visible on the page."
  | Position.end' => "Column with id:" ++ id ++ " is now fully visible on the page."

/-- `isHidden(el)`: `true` when the element's computed display is
`none`, otherwise recurse on the parent; a visible element with no
parent falls off the end of the function (JS `undefined`, here
`Option.none`).  The recursion is structural on the (finite) ancestor
chain. -/
def isHidden (display : String) (ancestors : List String) : Option Bool :=
  if display == "none" then some true
  else
    match ancestors with
    | [] => none
    | p :: rest => isHidden p rest

/-- JS truthiness of the `isHidden` result (`undefined` is falsy). -/
def truthy : Option Bool → Bool
  | none => false
  | some b => b

/-- `getScrollDirection()`, as a pure function of the current offset
`st` and the stored `lastScrollStart` (`none` = JS `null`).  JS
evaluates `st > null` as `st > 0`.  Returns the direction together with
the new `lastScrollStart = st <= 0 ? 0 : st`. -/
def getScrollDirection (st : ℚ) (lastScrollStart : Option ℚ) : Direction × ℚ :=
  let dir :=
    match lastScrollStart with
    | none => if 0 < st then Direction.down else Direction.up
    | some l => if l < st then Direction.down else Direction.up
  (dir, if st ≤ 0 then 0 else st)

/-- The visibility predicates object (`predictates` in the source,
spelling kept): for each direction, whether the start / center / end
point lies strictly inside `(0, viewportHeight)`. -/
structure Predicates where
  isStartVisible : Bool
  isCenterVisible : Bool
  isEndVisible : Bool
deriving DecidableEq, Repr

/-- The `predictates` object of `checkColumnPosition`, indexed by the
current scroll direction. -/
def predictates (viewportHeight colStart colCenter colEnd : ℚ) : Direction → Predicates
  | Direction.down =>
    { isStartVisible := decide (0 < colStart) && decide (colStart < viewportHeight)
      isCenterVisible := decide (0 < colCenter) && decide (colCenter < viewportHeight)
      isEndVisible := decide (0 < colEnd) && decide (colEnd < viewportHeight) }
  | Direction.up =>
    { isStartVisible := decide (0 < colEnd) && decide (colEnd < viewportHeight)
      isCenterVisible := decide (0 < colCenter) && decide (colCenter < viewportHeight)
      isEndVisible := decide (0 < colStart) && decide (colStart < viewportHeight) }

/-- `el.dispatchEvent(this.events.start)`: the once-listener fires (and
is removed) only if still attached. -/
def dispatchStart (i : Nat) (c : Column) : Column × List LogEntry :=
  if c.firedStart then (c, [])
  else ({ c with firedStart := true }, [⟨i, Position.start, logStatus Position.start c.id⟩])

/-- `el.dispatchEvent(this.events.center)`. -/
def dispatchCenter (i : Nat) (c : Column) : Column × List LogEntry :=
  if c.firedCenter then (c, [])
  else ({ c with firedCenter := true }, [⟨i, Position.center, logStatus Position.center c.id⟩])

/-- `el.dispatchEvent(this.events.end)`. -/
def dispatchEnd (i : Nat) (c : Column) : Column × List LogEntry :=
  if c.firedEnd then (c, [])
  else ({ c with firedEnd := true }, [⟨i, Position.end', logStatus Position.end' c.id⟩])

/-- The body of the `columns.forEach` callback of `checkColumnPosition`
for one element, given the resolved scroll direction: compute the three
reference points, the visibility predicates and the hidden test, and
dispatch the events whose predicate holds. -/
def checkOne (viewportHeight : ℚ) (dir : Direction) (i : Nat) (c : Column)
    (inp : ElemInput) : Column × List LogEntry :=
  let colStart := inp.rect.top
  let colCenter := colStart + inp.rect.height / 2
  let colEnd := inp.rect.bottom
  let isVisible := !truthy (isHidden inp.display inp.ancestorDisplays)
  let p := predictates viewportHeight colStart colCenter colEnd dir
  if isVisible then
    let r1 := if p.isStartVisible then dispatchStart i c else (c, [])
    let r2 := if p.isCenterVisible then dispatchCenter i r1.1 else (r1.1, [])
    let r3 := if p.isEndVisible then dispatchEnd i r2.1 else (r2.1, [])
    (r3.1, r1.2 ++ r2.2 ++ r3.2)
  else (c, [])

/-- The `columns.forEach` loop of `checkColumnPosition`, from global
element index `i` on: each element's listener state is updated and the
emitted log entries are concatenated in order. -/
def checkCols (viewportHeight : ℚ) (dir : Direction) (elems : Nat → ElemInput) :
    Nat → List Column → List Column × List LogEntry
  | _, [] => ([], [])
  | i, c :: cs =>
    let r := checkOne viewportHeight dir i c (elems i)
    let rest := checkCols viewportHeight dir elems (i + 1) cs
    (r.1 :: rest.1, r.2 ++ rest.2)

/-- The mutable fields of the `ColumnScrollLogger` instance. -/
structure TrackerState where
  scrollDirection : Option Direction
  lastScrollStart : Option ℚ
  columns : List Column
deriving DecidableEq, Repr

/-- `getColumns()`: the captured column elements, with fresh once-only
listeners attached for each of the three positions. -/
def getColumns (ids : List String) : List Column :=
  ids.map (fun id => ⟨id, false, false, false⟩)

/-- `new ColumnScrollLogger()`: `scrollDirection` and `lastScrollStart`
start as `null`; the columns present at construction are captured. -/
def columnScrollLogger (ids : List String) : TrackerState :=
  ⟨none, none, getColumns ids⟩

/-- The host-supplied data consumed by one `checkColumnPosition` call:
the scroll offset, the viewport height, and each element's geometry and
style chain. -/
structure CycleInput where
  st : ℚ
  viewportHeight : ℚ
  elems : Nat → ElemInput

/-- `checkColumnPosition()`: resolve the scroll direction (mutating
`scrollDirection` and `lastScrollStart`), then run the per-element
loop.  Returns the new instance state and the log entries emitted. -/
def checkColumnPosition (inp : CycleInput) (s : TrackerState) :
    TrackerState × List LogEntry :=
  let g := getScrollDirection inp.st s.lastScrollStart
  let r := checkCols inp.viewportHeight g.1 inp.elems 0 s.columns
  (⟨some g.1, some g.2, r.1⟩, r.2)

/-- A sequence of `checkColumnPosition` calls (one per scroll/resize
signal), concatenating the emitted log entries. -/
def runCycles : List CycleInput → TrackerState → TrackerState × List LogEntry
  | [], s => (s, [])
  | inp :: rest, s =>
    let r1 := checkColumnPosition inp s
    let r2 := runCycles rest r1.1
    (r2.1, r1.2 ++ r2.2)

/-- Number of notifications delivered to (element index `i`, position
`p`) in a log. -/
def countFires (i : Nat) (p : Position) (log : List LogEntry) : Nat :=
  (log.filter (fun e => e.colIdx == i && e.pos == p)).length

/-- The spec's containment test: `within(x) = 0 < x < viewportHeight`
(strict, open interval).  Each slot of the source's `predictates`
object is one instance of this test. -/
def within (viewportHeight x : ℚ) : Bool :=
  decide (0 < x) && decide (x < viewportHeight)

/-- Remaining notification budget of a latch: an unfired latch can still
deliver one notification, a fired latch none. -/
def budget (b : Bool) : Nat := if b then 0 else 1

/-- The latch of the column at index `k` of a column list (out-of-range
indices have no latch left to fire). -/
def colsFired (cols : List Column) (k : Nat) (p : Position) : Bool :=
  match cols[k]? with
  | some c => c.fired p
  | none => true

/-- Host data for one check cycle when geometry queries may fail:
`none` for an element means `getBoundingClientRect` /
`getComputedStyle` raises for it. -/
structure CycleInputE where
  st : ℚ
  viewportHeight : ℚ
  elems : Nat → Option ElemInput

/-- The `columns.forEach` loop when geometry queries may fail.  The
source has no try/catch, so a failing query aborts the loop: the
elements processed so far keep their updates and emitted entries, the
failing element and all later ones are untouched, and the exception
propagates (`Bool` component `true`). -/
def checkColsE (viewportHeight : ℚ) (dir : Direction) (elems : Nat → Option ElemInput) :
    Nat → List Column → List Column × List LogEntry × Bool
  | _, [] => ([], [], false)
  | i, c :: cs =>
    match elems i with
    | none => (c :: cs, [], true)
    | some e =>
      let r := checkOne viewportHeight dir i c e
      let rest := checkColsE viewportHeight dir elems (i + 1) cs
      (r.1 :: rest.1, r.2 ++ rest.2.1, rest.2.2)

/-- `checkColumnPosition()` under fallible geometry queries.
`getScrollDirection` has already mutated the scroll state before the
loop runs, so those updates survive a propagating exception. -/
def checkColumnPositionE (inp : CycleInputE) (s : TrackerState) :
    TrackerState × List LogEntry × Bool :=
  let g := getScrollDirection inp.st s.lastScrollStart
  let r := checkColsE inp.viewportHeight g.1 inp.elems 0 s.columns
  (⟨some g.1, some g.2, r.1⟩, r.2.1, r.2.2)

/-- Concrete cycle for the C2 counterexample: the geometry query for
element 0 fails; element 1 is fully inside the viewport. -/
def c2FailInput : CycleInputE :=
  ⟨5, 800, fun i => if i = 0 then none else some ⟨⟨10, 100⟩, "block", []⟩⟩

/-- Concrete two-column tracker for the C2 counterexample. -/
def c2FailState : TrackerState := columnScrollLogger ["a", "b"]

/-- Concrete cycle for the C7 witness: the element satisfies every
containment test but is `display: none`. -/
def c7HiddenInput : CycleInput :=
  ⟨5, 800, fun _ => ⟨⟨10, 100⟩, "none", []⟩⟩

/-- Concrete one-column tracker for the C7 witness. -/
def c7HiddenState : TrackerState := columnScrollLogger ["a"]

/-- Concrete cycle for C10: scrolling down, the element's top is above
the viewport while its center and bottom are inside it. -/
def c10Input : CycleInput :=
  ⟨5, 800, fun _ => ⟨⟨-10, 100⟩, "block", []⟩⟩

/-- The dispatcher for a given position (proof-side selector over the
three `dispatchEvent` calls of `checkColumnPosition`). -/
def dispatchOf : Position → Nat → Column → Column × List LogEntry
  | Position.start => dispatchStart
  | Position.center => dispatchCenter
  | Position.end' => dispatchEnd

/-! ## Helper lemmas -/

theorem countFires_append (i : Nat) (p : Position) (l1 l2 : List LogEntry) :
    countFires i p (l1 ++ l2) = countFires i p l1 + countFires i p l2 := by
  simp [countFires, List.filter_append]

theorem budget_le_one (b : Bool) : budget b ≤ 1 := by
  cases b <;> simp [budget]

theorem ite_dir_down (b : Prop) [Decidable b] :
    ((if b then Direction.down else Direction.up) = Direction.down) ↔ b := by
  split <;> simp_all

theorem ite_dir_up (b : Prop) [Decidable b] :
    ((if b then Direction.down else Direction.up) = Direction.up) ↔ ¬b := by
  split <;> simp_all

theorem clamp_eq_max (t : ℚ) : (if t ≤ 0 then (0 : ℚ) else t) = max 0 t := by
  split
  · exact (max_eq_left ‹t ≤ 0›).symm
  · exact (max_eq_right (le_of_lt (not_le.mp ‹¬t ≤ 0›))).symm

/-! ## C4: direction-dependent point mapping -/

/-- C4: for any geometry, `direction = down` tests start at the top,
center at `top + height/2`, end at the bottom (`= top + height`);
`direction = up` tests start at the bottom and end at the top with
center unchanged, so flipping the direction swaps exactly the points
tested for start and end and leaves the center test invariant. -/
theorem direction_point_mapping (vh : ℚ) (r : Rect) :
    r.bottom = r.top + r.height ∧
    predictates vh r.top (r.top + r.height / 2) r.bottom Direction.down
      = ⟨within vh r.top, within vh (r.top + r.height / 2), within vh r.bottom⟩ ∧
    predictates vh r.top (r.top + r.height / 2) r.bottom Direction.up
      = ⟨within vh r.bottom, within vh (r.top + r.height / 2), within vh r.top⟩ ∧
    (predictates vh r.top (r.top + r.height / 2) r.bottom Direction.up).isStartVisible
      = (predictates vh r.top (r.top + r.height / 2) r.bottom Direction.down).isEndVisible ∧
    (predictates vh r.top (r.top + r.height / 2) r.bottom Direction.up).isEndVisible
      = (predictates vh r.top (r.top + r.height / 2) r.bottom Direction.down).isStartVisible ∧
    (predictates vh r.top (r.top + r.height / 2) r.bottom Direction.up).isCenterVisible
      = (predictates vh r.top (r.top + r.height / 2) r.bottom Direction.down).isCenterVisible :=
  ⟨rfl, rfl, rfl, rfl, rfl, rfl⟩

/-! ## C5: direction resolution -/

/-- C5 counterexample: on the very first invocation with scroll offset
`st = -1`, the source resolves the direction to `up` although
`st ≠ 0`, refuting "up if and only if st == 0". -/
theorem first_call_direction_cex :
    (getScrollDirection (-1) none).1 = Direction.up ∧ ¬((-1 : ℚ) = 0) := by
  decide

/-- C5 amended: on the first invocation (stored previous offset still
`null`), the direction is down iff `st > 0` and up iff `st ≤ 0` (not
only when `st = 0`); on every later invocation it is down iff `st` is
strictly greater than the stored previous offset and up otherwise. -/
theorem direction_resolution_rule (st prev : ℚ) :
    ((getScrollDirection st none).1 = Direction.down ↔ 0 < st) ∧
    ((getScrollDirection st none).1 = Direction.up ↔ st ≤ 0) ∧
    ((getScrollDirection st (some prev)).1 = Direction.down ↔ prev < st) ∧
    ((getScrollDirection st (some prev)).1 = Direction.up ↔ st ≤ prev) := by
  simp [getScrollDirection, ite_dir_down, ite_dir_up, not_lt]

/-! ## C6: stored offset clamp -/

/-- C6: after every direction-resolution step the stored previous
scroll offset is `max 0 st` for the offset `st` read in that step, so
it is never negative; hence after every `checkColumnPosition` call the
stored field equals `some (max 0 st)`. -/
theorem lastScrollStart_clamp (st : ℚ) (last : Option ℚ) (inp : CycleInput)
    (s : TrackerState) :
    (getScrollDirection st last).2 = max 0 st ∧
    0 ≤ (getScrollDirection st last).2 ∧
    (checkColumnPosition inp s).1.lastScrollStart = some (max 0 inp.st) := by
  refine ⟨clamp_eq_max st, ?_, ?_⟩
  · rw [show (getScrollDirection st last).2 = max 0 st from clamp_eq_max st]
    exact le_max_left 0 st
  · exact congrArg some (clamp_eq_max inp.st)

/-! ## C8: the hidden test -/

/-- C8: for every element with a finite ancestor chain the hidden walk
is total and reports hidden exactly when the element itself or some
ancestor has computed display `none`; a visible element with no parent
ends the walk without error (the source returns `undefined`, which the
caller's negation treats as "not hidden"). -/
theorem isHidden_terminates_iff (d : String) (ancestors : List String) :
    truthy (isHidden d ancestors)
      = (d == "none" || ancestors.any (fun a => a == "none")) ∧
    isHidden d [] = (if d == "none" then some true else none) := by
  constructor
  · induction ancestors generalizing d with
    | nil => cases h : d == "none" <;> simp [isHidden, truthy, h]
    | cons p rest ih =>
      cases h : d == "none"
      · simp [isHidden, h, ih p]
      · simp [isHidden, h, truthy]
  · cases h : d == "none" <;> simp [isHidden, h]

/-! ## C9: log message templates -/

/-- C9: the emitted log line is exactly the literal template for the
position with the element's identifier substituted verbatim, and an
absent identifier degrades to the empty string without breaking
formatting. -/
theorem logStatus_templates (id : String) :
    logStatus Position.start id
      = "Column with id:" ++ id ++ " started to become visible on the page." ∧
    logStatus Position.center id
      = "Column with id:" ++ id ++ " is now more than 50% visible on the page." ∧
    logStatus Position.end' id
      = "Column with id:" ++ id ++ " is now fully visible on the page." ∧
    logStatus Position.start ""
      = "Column with id: started to become visible on the page." ∧
    logStatus Position.center ""
      = "Column with id: is now more than 50% visible on the page." ∧
    logStatus Position.end' ""
      = "Column with id: is now fully visible on the page." :=
  ⟨rfl, rfl, rfl, rfl, rfl, rfl⟩

/-! ## Dispatch-level lemmas -/

theorem dispatchOf_colIdx (q : Position) (i : Nat) (c : Column) :
    ∀ e ∈ (dispatchOf q i c).2, e.colIdx = i := by
  cases q <;>
    simp only [dispatchOf, dispatchStart, dispatchCenter, dispatchEnd] <;>
    split <;> simp

theorem dispatchOf_fired_ne (q p : Position) (h : ¬q = p) (i : Nat) (c : Column) :
    (dispatchOf q i c).1.fired p = c.fired p := by
  cases q <;> cases p <;>
    simp only [dispatchOf, dispatchStart, dispatchCenter, dispatchEnd, Column.fired] <;>
    first
      | exact absurd rfl h
      | split <;> rfl

theorem dispatchOf_count_ne (q p : Position) (h : ¬q = p) (i : Nat) (c : Column) :
    countFires i p (dispatchOf q i c).2 = 0 := by
  cases q <;> cases p <;>
    simp only [dispatchOf, dispatchStart, dispatchCenter, dispatchEnd] <;>
    first
      | exact absurd rfl h
      | split <;> simp [countFires]

theorem dispatchOf_budget (q : Position) (i : Nat) (c : Column) :
    countFires i q (dispatchOf q i c).2 + budget ((dispatchOf q i c).1.fired q)
      ≤ budget (c.fired q) := by
  cases q <;>
    simp only [dispatchOf, dispatchStart, dispatchCenter, dispatchEnd] <;>
    split <;> simp_all [Column.fired, budget, countFires]

theorem condDispatch_budget (b : Bool) (q : Position) (i : Nat) (c : Column) (p : Position) :
    countFires i p (if b then dispatchOf q i c else (c, [])).2
      + budget ((if b then dispatchOf q i c else (c, [])).1.fired p)
      ≤ budget (c.fired p) := by
  cases b
  · simp [countFires]
  · rw [if_pos rfl]
    by_cases hqp : q = p
    · subst hqp; exact dispatchOf_budget q i c
    · rw [dispatchOf_count_ne q p hqp, dispatchOf_fired_ne q p hqp]
      simp

theorem condDispatch_colIdx (b : Bool) (q : Position) (i : Nat) (c : Column) :
    ∀ e ∈ (if b then dispatchOf q i c else (c, [])).2, e.colIdx = i := by
  cases b
  · simp
  · rw [if_pos rfl]; exact dispatchOf_colIdx q i c

theorem condDispatch_fired_ne (b : Bool) (q p : Position) (h : ¬q = p) (i : Nat) (c : Column) :
    (if b then dispatchOf q i c else (c, [])).1.fired p = c.fired p := by
  cases b
  · rfl
  · rw [if_pos rfl]; exact dispatchOf_fired_ne q p h i c

theorem condDispatch_count_ne (b : Bool) (q p : Position) (h : ¬q = p) (i : Nat) (c : Column) :
    countFires i p (if b then dispatchOf q i c else (c, [])).2 = 0 := by
  cases b
  · simp [countFires]
  · rw [if_pos rfl]; exact dispatchOf_count_ne q p h i c

theorem budget_chain {c0 c1 c2 c3 : Column} {l1 l2 l3 : List LogEntry} (i : Nat) (p : Position)
    (h1 : countFires i p l1 + budget (c1.fired p) ≤ budget (c0.fired p))
    (h2 : countFires i p l2 + budget (c2.fired p) ≤ budget (c1.fired p))
    (h3 : countFires i p l3 + budget (c3.fired p) ≤ budget (c2.fired p)) :
    countFires i p (l1 ++ l2 ++ l3) + budget (c3.fired p) ≤ budget (c0.fired p) := by
  rw [countFires_append, countFires_append]
  omega

/-! ## Per-element lemmas about `checkOne` -/

theorem checkOne_budget (vh : ℚ) (dir : Direction) (i : Nat) (c : Column) (inp : ElemInput)
    (p : Position) :
    countFires i p (checkOne vh dir i c inp).2 + budget ((checkOne vh dir i c inp).1.fired p)
      ≤ budget (c.fired p) := by
  simp only [checkOne]
  split
  · exact budget_chain i p
      (condDispatch_budget _ Position.start i c p)
      (condDispatch_budget _ Position.center i _ p)
      (condDispatch_budget _ Position.end' i _ p)
  · simp [countFires]

theorem checkOne_colIdx (vh : ℚ) (dir : Direction) (i : Nat) (c : Column) (inp : ElemInput) :
    ∀ e ∈ (checkOne vh dir i c inp).2, e.colIdx = i := by
  simp only [checkOne]
  split
  · intro e he
    rcases List.mem_append.mp he with he' | h3
    · rcases List.mem_append.mp he' with h1 | h2
      · exact condDispatch_colIdx _ Position.start i c e h1
      · exact condDispatch_colIdx _ Position.center i _ e h2
    · exact condDispatch_colIdx _ Position.end' i _ e h3
  · simp

theorem checkOne_hidden (vh : ℚ) (dir : Direction) (i : Nat) (c : Column) (inp : ElemInput)
    (h : truthy (isHidden inp.display inp.ancestorDisplays) = true) :
    checkOne vh dir i c inp = (c, []) := by
  simp [checkOne, h]

theorem countFires_nil (i : Nat) (p : Position) : countFires i p [] = 0 := rfl

theorem dispatchCenter_firedStart (i : Nat) (c : Column) :
    (dispatchCenter i c).1.firedStart = c.firedStart := by
  unfold dispatchCenter; split <;> rfl

theorem dispatchEnd_firedStart (i : Nat) (c : Column) :
    (dispatchEnd i c).1.firedStart = c.firedStart := by
  unfold dispatchEnd; split <;> rfl

theorem dispatchCenter_count_start (i : Nat) (c : Column) :
    countFires i Position.start (dispatchCenter i c).2 = 0 := by
  unfold dispatchCenter; split <;> simp [countFires]

theorem dispatchEnd_count_start (i : Nat) (c : Column) :
    countFires i Position.start (dispatchEnd i c).2 = 0 := by
  unfold dispatchEnd; split <;> simp [countFires]

theorem condCenter_firedStart (b : Bool) (i : Nat) (c : Column) :
    (if b then dispatchCenter i c else (c, [])).1.firedStart = c.firedStart := by
  cases b
  · rfl
  · rw [if_pos rfl]; exact dispatchCenter_firedStart i c

theorem condEnd_firedStart (b : Bool) (i : Nat) (c : Column) :
    (if b then dispatchEnd i c else (c, [])).1.firedStart = c.firedStart := by
  cases b
  · rfl
  · rw [if_pos rfl]; exact dispatchEnd_firedStart i c

theorem condCenter_count_start (b : Bool) (i : Nat) (c : Column) :
    countFires i Position.start (if b then dispatchCenter i c else (c, [])).2 = 0 := by
  cases b
  · simp [countFires]
  · rw [if_pos rfl]; exact dispatchCenter_count_start i c

theorem condEnd_count_start (b : Bool) (i : Nat) (c : Column) :
    countFires i Position.start (if b then dispatchEnd i c else (c, [])).2 = 0 := by
  cases b
  · simp [countFires]
  · rw [if_pos rfl]; exact dispatchEnd_count_start i c

theorem checkOne_start_off (vh : ℚ) (dir : Direction) (i : Nat) (c : Column) (inp : ElemInput)
    (h : (predictates vh inp.rect.top (inp.rect.top + inp.rect.height / 2)
        inp.rect.bottom dir).isStartVisible = false) :
    (checkOne vh dir i c inp).1.firedStart = c.firedStart ∧
    countFires i Position.start (checkOne vh dir i c inp).2 = 0 := by
  simp only [checkOne, h, Bool.false_eq_true, if_false]
  split
  · constructor
    · rw [condEnd_firedStart, condCenter_firedStart]
    · rw [countFires_append, countFires_append, countFires_nil,
        condCenter_count_start, condEnd_count_start]
  · simp [countFires]

/-! ## Loop-level lemmas about `checkCols` -/

theorem countFires_colIdx_ne {l : List LogEntry} {j : Nat} (p : Position)
    (h : ∀ e ∈ l, ¬e.colIdx = j) : countFires j p l = 0 := by
  unfold countFires
  rw [List.length_eq_zero, List.filter_eq_nil_iff]
  intro e he
  simp [h e he]

theorem colsFired_nil (k : Nat) (p : Position) : colsFired [] k p = true := by
  simp [colsFired]

theorem colsFired_cons_zero (c : Column) (cs : List Column) (p : Position) :
    colsFired (c :: cs) 0 p = c.fired p := by
  simp [colsFired]

theorem colsFired_cons_succ (c : Column) (cs : List Column) (k : Nat) (p : Position) :
    colsFired (c :: cs) (k + 1) p = colsFired cs k p := by
  simp [colsFired]

theorem checkCols_colIdx_ge (vh : ℚ) (dir : Direction) (elems : Nat → ElemInput) :
    ∀ (cs : List Column) (j : Nat), ∀ e ∈ (checkCols vh dir elems j cs).2, j ≤ e.colIdx := by
  intro cs
  induction cs with
  | nil => intro j e he; simp [checkCols] at he
  | cons c cs' ih =>
    intro j e he
    simp only [checkCols] at he
    rcases List.mem_append.mp he with h1 | h2
    · exact le_of_eq (checkOne_colIdx vh dir j c (elems j) e h1).symm
    · exact le_trans (Nat.le_succ j) (ih (j + 1) e h2)

theorem checkCols_budget (vh : ℚ) (dir : Direction) (elems : Nat → ElemInput) :
    ∀ (cs : List Column) (j k : Nat) (p : Position),
      countFires (j + k) p (checkCols vh dir elems j cs).2
        + budget (colsFired (checkCols vh dir elems j cs).1 k p)
      ≤ budget (colsFired cs k p) := by
  intro cs
  induction cs with
  | nil => intro j k p; simp [checkCols, countFires, colsFired]
  | cons c cs' ih =>
    intro j k p
    simp only [checkCols]
    cases k with
    | zero =>
      rw [countFires_append]
      have h0 : countFires (j + 0) p (checkCols vh dir elems (j + 1) cs').2 = 0 := by
        apply countFires_colIdx_ne
        intro e he hej
        have := checkCols_colIdx_ge vh dir elems cs' (j + 1) e he
        omega
      rw [h0, colsFired_cons_zero, colsFired_cons_zero]
      have h1 := checkOne_budget vh dir j c (elems j) p
      rw [show j + 0 = j by omega]
      omega
    | succ k' =>
      rw [countFires_append]
      have h1 : countFires (j + (k' + 1)) p (checkOne vh dir j c (elems j)).2 = 0 := by
        apply countFires_colIdx_ne
        intro e he hej
        have := checkOne_colIdx vh dir j c (elems j) e he
        omega
      rw [h1, colsFired_cons_succ, colsFired_cons_succ,
        show j + (k' + 1) = (j + 1) + k' by omega]
      have h2 := ih (j + 1) k' p
      omega

theorem checkColumnPosition_budget (inp : CycleInput) (s : TrackerState) (i : Nat)
    (p : Position) :
    countFires i p (checkColumnPosition inp s).2
      + budget (colsFired (checkColumnPosition inp s).1.columns i p)
    ≤ budget (colsFired s.columns i p) := by
  have h := checkCols_budget inp.viewportHeight
    (getScrollDirection inp.st s.lastScrollStart).1 inp.elems s.columns 0 i p
  simpa [checkColumnPosition] using h

theorem runCycles_budget (inps : List CycleInput) :
    ∀ (s : TrackerState) (i : Nat) (p : Position),
      countFires i p (runCycles inps s).2
        + budget (colsFired (runCycles inps s).1.columns i p)
      ≤ budget (colsFired s.columns i p) := by
  induction inps with
  | nil => intro s i p; simp [runCycles, countFires]
  | cons inp rest ih =>
    intro s i p
    simp only [runCycles]
    rw [countFires_append]
    have h1 := checkColumnPosition_budget inp s i p
    have h2 := ih (checkColumnPosition inp s).1 i p
    omega

/-! ## C1: once-only notification -/

/-- C1: for every tracked element and semantic position, across any
sequence of `checkColumnPosition` calls from a freshly constructed
tracker, the notification for that (element, position) pair is
delivered at most once, however many cycles satisfy its containment
condition. -/
theorem notification_fires_at_most_once (ids : List String) (inps : List CycleInput)
    (i : Nat) (p : Position) :
    countFires i p (runCycles inps (columnScrollLogger ids)).2 ≤ 1 := by
  have h := runCycles_budget inps (columnScrollLogger ids) i p
  have hb := budget_le_one (colsFired (columnScrollLogger ids).columns i p)
  omega

/-! ## C7: hidden elements are skipped without state change -/

theorem checkCols_hidden_colIdx (vh : ℚ) (dir : Direction) (elems : Nat → ElemInput) (i : Nat)
    (h : truthy (isHidden (elems i).display (elems i).ancestorDisplays) = true) :
    ∀ (cs : List Column) (j : Nat), ∀ e ∈ (checkCols vh dir elems j cs).2, ¬e.colIdx = i := by
  intro cs
  induction cs with
  | nil => intro j e he; simp [checkCols] at he
  | cons c cs' ih =>
    intro j e he
    simp only [checkCols] at he
    rcases List.mem_append.mp he with h1 | h2
    · by_cases hji : j = i
      · subst hji
        rw [checkOne_hidden vh dir j c (elems j) h] at h1
        simp at h1
      · have := checkOne_colIdx vh dir j c (elems j) e h1
        omega
    · exact ih (j + 1) e h2

theorem checkCols_hidden_preserve (vh : ℚ) (dir : Direction) (elems : Nat → ElemInput) (i : Nat)
    (h : truthy (isHidden (elems i).display (elems i).ancestorDisplays) = true) :
    ∀ (cs : List Column) (j k : Nat), j + k = i →
      (checkCols vh dir elems j cs).1[k]? = cs[k]? := by
  intro cs
  induction cs with
  | nil => intro j k hk; simp [checkCols]
  | cons c cs' ih =>
    intro j k hk
    simp only [checkCols]
    cases k with
    | zero =>
      have hji : j = i := by omega
      subst hji
      rw [checkOne_hidden vh dir j c (elems j) h]
      simp
    | succ k' =>
      simp only [List.getElem?_cons_succ]
      exact ih (j + 1) k' (by omega)

/-- C7: if a tracked element (or an ancestor) has computed display
`none` in a cycle, none of its three notifiers fires in that cycle and
its per-element latch state is unchanged, so its notifications stay
available for later cycles. -/
theorem hidden_suppresses_notifications (inp : CycleInput) (s : TrackerState) (i : Nat)
    (h : truthy (isHidden (inp.elems i).display (inp.elems i).ancestorDisplays) = true) :
    (checkColumnPosition inp s).1.columns[i]? = s.columns[i]? ∧
    ∀ e ∈ (checkColumnPosition inp s).2, ¬e.colIdx = i := by
  constructor
  · have hp := checkCols_hidden_preserve inp.viewportHeight
      (getScrollDirection inp.st s.lastScrollStart).1 inp.elems i h s.columns 0 i (by omega)
    simpa [checkColumnPosition] using hp
  · intro e he
    exact checkCols_hidden_colIdx inp.viewportHeight
      (getScrollDirection inp.st s.lastScrollStart).1 inp.elems i h s.columns 0 e
      (by simpa [checkColumnPosition] using he)

/-- C7 witness: a concrete `display: none` element whose geometry
satisfies every containment test fires nothing and keeps its state. -/
theorem hidden_suppresses_witness :
    (checkColumnPosition c7HiddenInput c7HiddenState).1.columns[0]?
      = c7HiddenState.columns[0]? ∧
    ∀ e ∈ (checkColumnPosition c7HiddenInput c7HiddenState).2, ¬e.colIdx = 0 :=
  hidden_suppresses_notifications c7HiddenInput c7HiddenState 0 (by decide)

/-! ## C3: boundary exclusion -/

/-- C3: the containment test is the strict open interval
`0 < x < viewportHeight`: a tested coordinate exactly at `0` or exactly
at the viewport height satisfies none of the six predicate slots, and
an element whose top sits exactly on the boundary never fires the start
notifier while scrolling down (its start latch is untouched). -/
theorem boundary_exclusion (vh x a b : ℚ) (hx : x = 0 ∨ x = vh) :
    (predictates vh x a b Direction.down).isStartVisible = false ∧
    (predictates vh a x b Direction.down).isCenterVisible = false ∧
    (predictates vh a b x Direction.down).isEndVisible = false ∧
    (predictates vh a b x Direction.up).isStartVisible = false ∧
    (predictates vh a x b Direction.up).isCenterVisible = false ∧
    (predictates vh x a b Direction.up).isEndVisible = false ∧
    ∀ (i : Nat) (c : Column) (hgt : ℚ) (d : String) (anc : List String),
      (checkOne vh Direction.down i c ⟨⟨x, hgt⟩, d, anc⟩).1.firedStart = c.firedStart ∧
      countFires i Position.start (checkOne vh Direction.down i c ⟨⟨x, hgt⟩, d, anc⟩).2 = 0 := by
  have hx' : (decide (0 < x) && decide (x < vh)) = false := by
    rcases hx with rfl | rfl <;> simp
  refine ⟨hx', hx', hx', hx', hx', hx', ?_⟩
  intro i c hgt d anc
  exact checkOne_start_off vh Direction.down i c ⟨⟨x, hgt⟩, d, anc⟩ hx'

/-- C3 witness: concrete boundary instance with `x = 0`. -/
theorem boundary_exclusion_witness :
    (predictates 5 0 1 2 Direction.down).isStartVisible = false ∧
    countFires 0 Position.start
      (checkOne 5 Direction.down 0 ⟨"w", false, false, false⟩ ⟨⟨0, 4⟩, "block", []⟩).2 = 0 :=
  ⟨(boundary_exclusion 5 0 1 2 (Or.inl rfl)).1,
    ((boundary_exclusion 5 0 1 2 (Or.inl rfl)).2.2.2.2.2.2
      0 ⟨"w", false, false, false⟩ 4 "block" []).2⟩

/-! ## C10: positions are independent -/

/-- C10: the three notifications of one element are mutually
independent: in a concrete downward cycle whose element has its top
above the viewport and its center inside it, the center notifier fires
while the start notifier does not fire and has never fired. -/
theorem center_fires_without_start :
    countFires 0 Position.center (checkColumnPosition c10Input (columnScrollLogger ["a"])).2 = 1 ∧
    countFires 0 Position.start (checkColumnPosition c10Input (columnScrollLogger ["a"])).2 = 0 ∧
    (checkColumnPosition c10Input (columnScrollLogger ["a"])).1.columns[0]?
      = some ⟨"a", false, true, true⟩ ∧
    (checkColumnPosition c10Input (columnScrollLogger ["a"])).1.scrollDirection
      = some Direction.down := by
  norm_num [checkColumnPosition, columnScrollLogger, getColumns, c10Input, checkCols,
    checkOne, getScrollDirection, predictates, isHidden, truthy, dispatchStart,
    dispatchCenter, dispatchEnd, countFires, Rect.bottom, List.filter]
  decide

/-! ## C2: behaviour under failing geometry queries -/

theorem checkColsE_total (vh : ℚ) (dir : Direction) (elemsO : Nat → Option ElemInput)
    (elems : Nat → ElemInput) (hall : ∀ i, elemsO i = some (elems i)) :
    ∀ (cs : List Column) (j : Nat),
      checkColsE vh dir elemsO j cs
        = ((checkCols vh dir elems j cs).1, (checkCols vh dir elems j cs).2, false) := by
  intro cs
  induction cs with
  | nil => intro j; rfl
  | cons c cs' ih =>
    intro j
    simp only [checkColsE, checkCols, hall j, ih (j + 1)]

theorem checkColsE_fail (vh : ℚ) (dir : Direction) (elems : Nat → Option ElemInput) :
    ∀ (cs : List Column) (n j : Nat),
      (∀ k, k < j → ¬elems (n + k) = none) → elems (n + j) = none → j < cs.length →
      (checkColsE vh dir elems n cs).2.2 = true ∧
      (∀ e ∈ (checkColsE vh dir elems n cs).2.1, e.colIdx < n + j) ∧
      ∀ i, j ≤ i → (checkColsE vh dir elems n cs).1[i]? = cs[i]? := by
  intro cs
  induction cs with
  | nil =>
    intro n j hmin hj hlen
    simp at hlen
  | cons c cs' ih =>
    intro n j hmin hj hlen
    cases j with
    | zero =>
      have hn : elems n = none := by simpa using hj
      simp only [checkColsE, hn]
      refine ⟨trivial, ?_, ?_⟩
      · intro e he
        simp at he
      · intro i _
        trivial
    | succ j' =>
      have hn : ¬elems n = none := by
        have := hmin 0 (Nat.succ_pos j')
        simpa using this
      obtain ⟨e0, he0⟩ := Option.ne_none_iff_exists'.mp hn
      simp only [checkColsE, he0]
      have hmin' : ∀ k, k < j' → ¬elems (n + 1 + k) = none := by
        intro k hk
        have h2 := hmin (k + 1) (by omega)
        rwa [show n + (k + 1) = n + 1 + k by omega] at h2
      have hj' : elems (n + 1 + j') = none := by
        rwa [show n + (j' + 1) = n + 1 + j' by omega] at hj
      have hlen' : j' < cs'.length := by
        simp at hlen
        omega
      obtain ⟨ht, hent, hpres⟩ := ih (n + 1) j' hmin' hj' hlen'
      refine ⟨ht, ?_, ?_⟩
      · intro e he
        rcases List.mem_append.mp he with h1 | h2
        · have := checkOne_colIdx vh dir n c e0 e h1
          omega
        · have := hent e h2
          omega
      · intro i hi
        cases i with
        | zero => omega
        | succ i' =>
          simp only [List.getElem?_cons_succ]
          exact hpres i' (by omega)

/-- C2 counterexample: in a two-column tracker whose first element's
geometry query fails while the second sits fully inside the viewport,
the cycle throws (flag `true`), emits no log entry, and leaves every
latch unchanged — so the second element was not evaluated, although
evaluating it alone would have fired its start notifier. -/
theorem geometry_failure_cex :
    (checkColumnPositionE c2FailInput c2FailState).2.2 = true ∧
    (checkColumnPositionE c2FailInput c2FailState).2.1 = [] ∧
    (checkColumnPositionE c2FailInput c2FailState).1.columns = getColumns ["a", "b"] ∧
    countFires 1 Position.start
      (checkOne 800 Direction.down 1 ⟨"b", false, false, false⟩ ⟨⟨10, 100⟩, "block", []⟩).2
      = 1 := by
  refine ⟨rfl, rfl, rfl, ?_⟩
  norm_num [checkOne, predictates, isHidden, truthy, dispatchStart, dispatchCenter,
    dispatchEnd, countFires, Rect.bottom, List.filter]
  decide

/-- C2 amended: when the geometry query fails for the tracked element
at index `j` of a cycle (queries for earlier elements succeeding), the
exception propagates out of `checkColumnPosition`: the cycle throws, no
notification is delivered for the failing element or any later one, and
the latches of all elements from index `j` on are unchanged (elements
before `j` were already evaluated normally when the exception was
raised). -/
theorem geometry_failure_propagates (inp : CycleInputE) (s : TrackerState) (j : Nat)
    (hmin : ∀ k, k < j → ¬inp.elems k = none) (hj : inp.elems j = none)
    (hlen : j < s.columns.length) :
    (checkColumnPositionE inp s).2.2 = true ∧
    (∀ e ∈ (checkColumnPositionE inp s).2.1, e.colIdx < j) ∧
    ∀ i, j ≤ i → (checkColumnPositionE inp s).1.columns[i]? = s.columns[i]? := by
  have hmin0 : ∀ k, k < j → ¬inp.elems (0 + k) = none := by
    intro k hk
    simpa using hmin k hk
  have hj0 : inp.elems (0 + j) = none := by simpa using hj
  obtain ⟨ht, hent, hpres⟩ := checkColsE_fail inp.viewportHeight
    (getScrollDirection inp.st s.lastScrollStart).1 inp.elems s.columns 0 j hmin0 hj0 hlen
  refine ⟨ht, ?_, ?_⟩
  · intro e he
    have := hent e (by simpa [checkColumnPositionE] using he)
    omega
  · intro i hi
    simpa [checkColumnPositionE] using hpres i hi

/-- C2 witness: the amended behaviour at the concrete failing input. -/
theorem geometry_failure_propagates_witness :
    (checkColumnPositionE c2FailInput c2FailState).2.2 = true ∧
    (∀ e ∈ (checkColumnPositionE c2FailInput c2FailState).2.1, e.colIdx < 0) ∧
    ∀ i, 0 ≤ i →
      (checkColumnPositionE c2FailInput c2FailState).1.columns[i]? = c2FailState.columns[i]? :=
  geometry_failure_propagates c2FailInput c2FailState 0
    (fun k hk => absurd hk (Nat.not_lt_zero k)) rfl (by decide)
